import Mathlib

/-!
Shallow embedding of the flashlight dependency auditor.

The repository concatenates several revisions of the tool; the embedding
follows the revision the specification describes (the optimist-based CLI in
src/index.js, lines 382-964) together with src/lib/version.js.

JavaScript objects are modelled as association lists in property-insertion
order; `undefined` is `Option.none`; the dynamic per-module report object is
a structure whose dynamically assigned attribute slots live in an assoc
list.  External collaborators (the semver library, `process.version`,
`path.dirname`, the npm registry, and child processes) are oracles collected
in an `Env` structure, so theorems quantify over every possible behaviour of
those collaborators.
-/

/-- A JavaScript value occurring in a parsed package.json: booleans, strings
and objects (assoc lists in insertion order).  The manifests analysed here
contain no numbers or nulls, so those are omitted. -/
inductive JsVal where
  | b (bv : Bool)
  | s (sv : String)
  | o (fields : List (String × JsVal))

/-- First-match association-list lookup (JS property read). -/
def lookupAssoc {α : Type} : List (String × α) → String → Option α
  | [], _ => none
  | (k, v) :: rest, key => if key = k then some v else lookupAssoc rest key

/-- JS property assignment: overwrite in place when the key exists (keeping
its position), otherwise append. -/
def setAssoc {α : Type} : List (String × α) → String → α → List (String × α)
  | [], key, v => [(key, v)]
  | (k, w) :: rest, key, v =>
    if key = k then (key, v) :: rest else (k, w) :: setAssoc rest key v

/-- JS truthiness of a value. -/
def truthy : JsVal → Bool
  | .b bv => bv
  | .s sv => !(sv == "")
  | .o _ => true

/-- JS truthiness where `none` is `undefined`. -/
def truthyO : Option JsVal → Bool
  | none => false
  | some v => truthy v

/-- JS truthiness of an optional string slot (`undefined` or a string). -/
def truthyOS : Option String → Bool
  | none => false
  | some sv => !(sv == "")

/-- JS truthiness of a numeric slot; `none` models both `undefined` and
`NaN` (both falsy, and both absorb `++`). -/
def truthyNum : Option Int → Bool
  | none => false
  | some k => !(k == 0)

/-- JS `++` on a numeric slot: `undefined++`/`NaN++` stay `NaN`. -/
def incOpt : Option Int → Option Int
  | none => none
  | some k => some (k + 1)

/-- JS string coercion of a value (as done by `+` concatenation and by
property-key conversion). -/
def jsToString : JsVal → String
  | .b true => "true"
  | .b false => "false"
  | .s sv => sv
  | .o _ => "[object Object]"

/-- JS property-key coercion of a possibly-undefined value: `obj[undefined]`
reads the key "undefined". -/
def jsKeyRaw : Option JsVal → String
  | none => "undefined"
  | some v => jsToString v

/-- JS property read: on a non-object it yields `undefined` (primitives have
none of the properties read by this program). -/
def jsGet : JsVal → String → Option JsVal
  | .o fields, k => lookupAssoc fields k
  | _, _ => none

/-- `v.k1.k2` where a missing or primitive intermediate yields `undefined`. -/
def jsGet2 (v : JsVal) (k₁ k₂ : String) : Option JsVal :=
  match jsGet v k₁ with
  | some w => jsGet w k₂
  | none => none

/-- `v === .s t` (strict equality against a string literal). -/
def isStrEq : Option JsVal → String → Bool
  | some (.s t), sv => t == sv
  | _, _ => false

/-- `v === false` (strict equality against the boolean literal). -/
def isFalseLit : JsVal → Bool
  | .b false => true
  | _ => false

/-- `'a.b.c'.split('.')`, structurally recursive over the characters. -/
def splitDotAux : List Char → List Char → List String
  | [], cur => [String.mk cur.reverse]
  | ch :: rest, cur =>
    if ch = '.' then String.mk cur.reverse :: splitDotAux rest []
    else splitDotAux rest (ch :: cur)

def splitDot (sv : String) : List String := splitDotAux sv.data []

/-- `target.replace('.', '_')`: JS `String.replace` with a string pattern
replaces only the first occurrence. -/
def replaceFirstDot (sv : String) : String :=
  match splitDot sv with
  | [] => sv
  | [x] => x
  | x :: rest => x ++ "_" ++ String.intercalate "." rest

/-- The per-(name, version) report object.  `errors`, `warnings` and the
dynamically assigned fields (`scripts_test`, `version`, `engine_node`,
`license`, ... — stored in `attrs`) are written by the inspection;
`refCount`, `testsPassing`, `depChain` and `latest` by the test stage.
Slots that the code may leave unassigned are `Option`s (`none` =
`undefined`).  The source never creates a `warning` (singular) property,
which is why `checkDepVersions` can throw — see below. -/
structure MReport where
  errors : List String := []
  warnings : List String := []
  attrs : List (String × JsVal) := []
  refCount : Option Int := none
  testsPassing : Option Bool := none
  depChain : Option (List String) := none
  latest : Option String := none

/-- The name-level aggregate `report[name]`: its `description` and
`refCount` properties plus one entry per version string. -/
structure NameReport where
  description : Option JsVal := none
  refCount : Option Int := none
  versions : List (String × MReport) := []

/-- The process-wide report.  `main` creates it as `{}`, so `errors` and
`warnings` start out `undefined` (`none`); only the older revision of the
code ever initialised them. -/
structure Report where
  errors : Option (List String) := none
  warnings : Option (List String) := none
  modules : List (String × NameReport) := []

/-- A flattened test candidate (an element of `testArray`), as pushed by
`createTestArray`; `latest` is attached later by `getLatestVersions`. -/
structure Cand where
  packageJson : String
  ver : Option String := none
  name : Option String := none
  latest : Option String := none
deriving DecidableEq, Repr

/-- Outcome of a node-style callback: `cb()` or `cb(err)`. -/
inductive CbOut where
  | ok
  | err (msg : String)
deriving DecidableEq, Repr

/-- External collaborators, as oracles.  `satisfies`, `semverValid` and
`semverGtv` stand for the semver library (`semver.satisfies`,
`semver.valid`, and the ordering used by `semver.gt` on valid input);
`processVersion` is `process.version`; `dirname` is `path.dirname`;
`depChainOf` is `depChainFromPath` (a pure computation from the path and
the process working directory, opaque to every claim); `npmLoadErr` and
`view` model `npm.load` and `npm.commands.view`; `spawnExit cwd cmd` is the
exit code of `spawn('npm', [cmd], {cwd})`. -/
structure Env where
  processVersion : String
  satisfies : String → String → Bool
  semverValid : String → Bool
  semverGtv : String → String → Bool
  dirname : String → String
  depChainOf : String → String
  npmLoadErr : Option String := none
  view : String → Except String (List (String × Option (List String)))
  spawnExit : String → String → Int

/-- `semver.gt(a, b)`: node-semver's comparison constructors throw
`TypeError: Invalid Version` when either argument is not valid semver;
on valid input the result is the strict order. -/
def semverGt (env : Env) (a bv : String) : Except String Bool :=
  if env.semverValid a && env.semverValid bv then .ok (env.semverGtv a bv)
  else .error ("Invalid Version: " ++ (if env.semverValid a then bv else a))

/-- `semver.valid(v)`: `null` (falsy) for non-strings and non-semver
strings. -/
def validJs (env : Env) : Option JsVal → Bool
  | some (.s sv) => env.semverValid sv
  | _ => false

/-- `getPropertyVal`'s walk: descend the split path, returning the default
as soon as `hasOwnProperty` fails (which it does on every primitive for the
property names this program uses). -/
def getPropertyValGo (defaultVal : JsVal) : List String → JsVal → JsVal
  | [], cur => cur
  | p :: rest, cur =>
    match cur with
    | .o fields =>
      match lookupAssoc fields p with
      | some v => getPropertyValGo defaultVal rest v
      | none => defaultVal
    | _ => defaultVal

/-- src/index.js `getPropertyVal(obj, property, defaultVal)` (lines
827-841): iterate down a dotted path, yielding the default value when any
step is missing. -/
def getPropertyVal (obj : JsVal) (property : String) (defaultVal : JsVal) : JsVal :=
  getPropertyValGo defaultVal (splitDot property) obj

/-- src/index.js `checkAttr(module, target, isError, reportForMod)` (lines
852-864): look the dotted path up with default `false`; a result that is
`=== false` (which conflates a missing field with a literal `false` value)
is reported missing, anything else is stored under the normalised key. -/
def checkAttr (module : JsVal) (target : String) (isError : Bool) (reportForMod : MReport) : MReport :=
  let val := getPropertyVal module target (.b false)
  if isFalseLit val then
    if isError then
      {reportForMod with errors := reportForMod.errors ++ ["package.json missing: " ++ target]}
    else
      {reportForMod with warnings := reportForMod.warnings ++ ["package.json missing: " ++ target]}
  else
    {reportForMod with attrs := setAssoc reportForMod.attrs (replaceFirstDot target) val}

/-- The spec-side notion of "the dotted path resolves to a value that is
explicitly present": the same walk as `getPropertyValGo`, but keeping
absence distinct from every present value. -/
def resolveOpt : JsVal → List String → Option JsVal
  | cur, [] => some cur
  | .o fields, p :: rest =>
    match lookupAssoc fields p with
    | some v => resolveOpt v rest
    | none => none
  | _, _ :: _ => none

def NO_VERSION : String := "NO_VERSION"

def typeErrPush : String := "TypeError: Cannot read property 'push' of undefined"

def typeErrUndef : String := "TypeError: Cannot read property of undefined"

def wildcardMsg (property : String) (depVal : JsVal) : String :=
  property ++ " for " ++ jsToString depVal ++ "'s version is a wildcard"

def rangeMsg (property : String) (depVal : JsVal) (depName : String) : String :=
  property ++ " for " ++ jsToString depVal ++ "'s version is " ++ depName

/-- Whether the regex /^c(.)+/ matches: first character is `c` and it is
followed by at least one character that `.` can match (any but a
newline). -/
def matchCharPlus (c : Char) (sv : String) : Bool :=
  match sv.data with
  | c0 :: c1 :: _ => c0 == c && c1 != '\n'
  | _ => false

/-- The body of `checkDepVersions`'s `_.forOwn` loop.  lodash invokes the
callback as `(value, key)`, but the source declares its parameters as
`function(key, val)` — so the variable the source calls `val` (and
classifies with its `=== '*'` / regex tests) is in fact the dependency's
NAME, and the variable it calls `key` (interpolated into the messages) is
the declared constraint value.  The embedding binds each object entry as
`(depName, depVal)` and reproduces exactly that swap.  The `<` and `~`
branches push onto `mreport.warning`, a property that never exists
(`mreport` only ever has `warnings`), so reaching them throws a
`TypeError`, which aborts the loop with the partial findings kept. -/
def depFindings (property : String) : List (String × JsVal) → MReport → MReport × Option String
  | [], mreport => (mreport, none)
  | (depName, depVal) :: rest, mreport =>
    if depName == "" || depName == "*" then
      depFindings property rest
        {mreport with errors := mreport.errors ++ [wildcardMsg property depVal]}
    else if matchCharPlus '>' depName then
      depFindings property rest
        {mreport with errors := mreport.errors ++ [rangeMsg property depVal depName]}
    else if matchCharPlus '<' depName then (mreport, some typeErrPush)
    else if matchCharPlus '~' depName then (mreport, some typeErrPush)
    else depFindings property rest mreport

/-- The entries `_.forOwn` iterates over: own enumerable properties of an
object; the sections this program passes are objects (or absent). -/
def objFields : Option JsVal → List (String × JsVal)
  | some (.o fields) => fields
  | _ => []

/-- src/index.js `checkDepVersions(module, property, mreport)` (lines
868-882, identical in src/lib/version.js lines 44-58): skip when the named
section is falsy, otherwise run the classification loop (see
`depFindings`).  The second component is the exception, if one was
thrown. -/
def checkDepVersions (module : JsVal) (property : String) (mreport : MReport) :
    MReport × Option String :=
  if truthyO (jsGet module property) = false then (mreport, none)
  else depFindings property (objFields (jsGet module property)) mreport

def engineNodeMsg (env : Env) (engineNode : JsVal) : String :=
  "version of Node.js (" ++ env.processVersion ++ ") does not satisfy engine.node: "
    ++ jsToString engineNode

def semverNonCompliantMsg (v : Option JsVal) : String :=
  "package.json: version is not semver-compliant: "
    ++ (match v with | some w => jsToString w | none => "undefined")

/-- The fixed attribute checklist of `inspectModule` (lines 921-928). -/
def toDoChecks : List (String × Bool) :=
  [("scripts.test", true), ("version", true), ("repository.url", false),
   ("bugs.url", false), ("homepage", false), ("license", false)]

/-- `report[name] = nr` (overwrite in place or append). -/
def putName (r : Report) (nameKey : String) (nr : NameReport) : Report :=
  {r with modules := setAssoc r.modules nameKey nr}

/-- Write a name-level aggregate whose version entry at `verKey` is `mr`:
the in-place JS mutations of the aliased `mreport` are flushed through this
single update (nothing reads the entry in between). -/
def putNameVer (r : Report) (nameKey verKey : String) (nr : NameReport) (mr : MReport) : Report :=
  putName r nameKey {nr with versions := setAssoc nr.versions verKey mr}

/-- The non-duplicate path of `inspectModule` (lines 903-954): create the
version entry keyed by `ver` (the version, or `NO_VERSION` when falsy),
check the engine constraint, record the description, run the attribute
checklist and both dependency-section checks (which may throw, leaving the
partially filled entry in the report), validate semver compliance, and set
the reference counts.  Returns the testability verdict
(`mreport.scripts_test` truthy). -/
def inspectNew (env : Env) (module : JsVal) (report : Report) (nameKey : String)
    (nr₀ : NameReport) : Report × Except String Bool :=
  let verKey := if truthyO (jsGet module "version") then jsKeyRaw (jsGet module "version")
                else NO_VERSION
  let mr₀ : MReport := {}
  let mr₁ :=
    if truthyO (jsGet module "engine") && truthyO (jsGet2 module "engine" "node")
        && !(truthyO (lookupAssoc mr₀.attrs "engine_node")) then
      let en := (jsGet2 module "engine" "node").getD (.b false)
      let mr := {mr₀ with attrs := setAssoc mr₀.attrs "engine_node" en}
      if env.satisfies env.processVersion (jsToString en) = false then
        {mr with errors := mr.errors ++ [engineNodeMsg env en]}
      else mr
    else mr₀
  let nr₁ :=
    if truthyO nr₀.description = false && truthyO (jsGet module "description") then
      {nr₀ with description := jsGet module "description"}
    else nr₀
  let mr₂ := toDoChecks.foldl (fun mr item => checkAttr module item.1 item.2 mr) mr₁
  match checkDepVersions module "dependencies" mr₂ with
  | (mrE, some e) => (putNameVer report nameKey verKey nr₁ mrE, .error e)
  | (mr₃, none) =>
    match checkDepVersions module "devDependencies" mr₃ with
    | (mrE, some e) => (putNameVer report nameKey verKey nr₁ mrE, .error e)
    | (mr₄, none) =>
      let mr₅ :=
        if verKey == NO_VERSION then
          {mr₄ with attrs := setAssoc mr₄.attrs "version" (.s NO_VERSION)}
        else mr₄
      let mr₆ :=
        if !(isStrEq (lookupAssoc mr₅.attrs "version") NO_VERSION)
            && !(validJs env (lookupAssoc mr₅.attrs "version")) then
          {mr₅ with errors := mr₅.errors ++ [semverNonCompliantMsg (lookupAssoc mr₅.attrs "version")]}
        else mr₅
      let mr₇ := {mr₆ with refCount := some 1}
      let nr₂ := {nr₁ with refCount := if truthyNum nr₁.refCount then incOpt nr₁.refCount
                                       else some 1}
      (putNameVer report nameKey verKey nr₂ mr₇, .ok (truthyO (lookupAssoc mr₇.attrs "scripts_test")))

/-- src/index.js `inspectModule(module, report)` (lines 890-955).  Fails
closed on a missing name.  The "seen before" test reads
`report[module.name][module.version]` with the RAW version (so a falsy
version looks up the key "undefined" or "", not the `NO_VERSION` entry the
first encounter stored); a hit bumps both reference counts and skips
re-inspection, anything else takes the creation path `inspectNew`. -/
def inspectModule (env : Env) (module : JsVal) (report : Report) : Report × Except String Bool :=
  if truthyO (jsGet module "name") = false then (report, .ok false)
  else
    let nameKey := jsKeyRaw (jsGet module "name")
    let rawVer := jsKeyRaw (jsGet module "version")
    match lookupAssoc report.modules nameKey with
    | some nr₀ =>
      match lookupAssoc nr₀.versions rawVer with
      | some mr₀ =>
        (putNameVer report nameKey rawVer {nr₀ with refCount := incOpt nr₀.refCount}
          {mr₀ with refCount := incOpt mr₀.refCount}, .ok false)
      | none => inspectNew env module report nameKey nr₀
    | none => inspectNew env module report nameKey {}

def parseFailMsg (p : String) : String := p ++ ": could not parse file"

def outdatedMsg (ver latest : String) : String :=
  "version " ++ ver ++ " is outdated, the latest version is: " ++ latest

/-- Lines 688-693 of `testModule`: when `mreport.latest` is falsy and the
candidate carries a truthy `latest`, record it and compare with
`semver.gt(mreport.latest, ver)` — which throws when either string is not
valid semver (`ver` may be "NO_VERSION", `latest` may be the "?.?.?"
sentinel). -/
def latestStep (env : Env) (mr : MReport) (obj : Cand) (ver : String) : MReport × Option String :=
  if truthyOS mr.latest = false && truthyOS obj.latest then
    let latest := obj.latest.getD ""
    let mr₁ := {mr with latest := some latest}
    match semverGt env latest ver with
    | .error e => (mr₁, some e)
    | .ok g =>
      (if g then {mr₁ with warnings := mr₁.warnings ++ [outdatedMsg ver latest]} else mr₁, none)
  else (mr, none)

/-- src/index.js `testModule(report, obj, cb)` (lines 671-718), as one
transition on the report.  `req` models `require(obj.packageJson)`.
Returns the updated report, the external processes spawned (as (cwd, npm
subcommand) pairs, in order), and either a thrown exception (`.error`) or
the callback outcome (`.ok CbOut`).

On a parse failure the code runs `report.errors.push(...)` — but `main`
created the report as a plain `{}`, so when `errors` is `undefined` this
itself throws.  After a successful `inspectModule`, the code reads
`report[module.name][ver]` unconditionally, which throws when the module
had no name (no entry was created).  The install step reports a non-zero
exit through `cb(err)`; a non-zero test exit is swallowed (`cb()` with
`testsPassing` left `false`). -/
def testModule (env : Env) (req : String → Except String JsVal) (report : Report) (obj : Cand) :
    Report × List (String × String) × Except String CbOut :=
  match req obj.packageJson with
  | .error _ =>
    match report.errors with
    | none => (report, [], .error typeErrPush)
    | some es =>
      ({report with errors := some (es ++ [parseFailMsg obj.packageJson])}, [], .ok .ok)
  | .ok module =>
    match inspectModule env module report with
    | (r₁, .error e) => (r₁, [], .error e)
    | (r₁, .ok testable) =>
      let ver := if truthyO (jsGet module "version") then jsKeyRaw (jsGet module "version")
                 else NO_VERSION
      let nameKey := jsKeyRaw (jsGet module "name")
      match lookupAssoc r₁.modules nameKey with
      | none => (r₁, [], .error typeErrUndef)
      | some nr =>
        match lookupAssoc nr.versions ver with
        | none => (r₁, [], .error typeErrUndef)
        | some mr =>
          let mr₁ := {mr with testsPassing := some false}
          let mr₂ := if mr₁.depChain.isSome then mr₁ else {mr₁ with depChain := some []}
          let newChain := some (mr₂.depChain.getD [] ++ [env.depChainOf obj.packageJson])
          let mr₃ := {mr₂ with depChain := newChain}
          match latestStep env mr₃ obj ver with
          | (mr₄, some e) => (putNameVer r₁ nameKey ver nr mr₄, [], .error e)
          | (mr₄, none) =>
            let r₂ := putNameVer r₁ nameKey ver nr mr₄
            if testable then
              let cwd := env.dirname obj.packageJson
              let installExit := env.spawnExit cwd "install"
              if installExit == 0 then
                let testExit := env.spawnExit cwd "test"
                if testExit == 0 then
                  (putNameVer r₁ nameKey ver nr {mr₄ with testsPassing := some true},
                   [(cwd, "install"), (cwd, "test")], .ok .ok)
                else (r₂, [(cwd, "install"), (cwd, "test")], .ok .ok)
              else
                (r₂, [(cwd, "install")],
                 .ok (.err ("exited with code: " ++ toString installExit)))
            else (r₂, [], .ok .ok)

/-- src/index.js `runTests(testArray, parallel, report, cb)` (lines
602-615), at `parallel = 1` (the `-p 1` configuration), where
`async.mapLimit` runs the candidates strictly in order.  When an iteratee
passes an error to its callback, `mapLimit` invokes the final callback at
once and schedules no further candidate; `runTests`'s final callback only
logs that error and calls `cb()` — hence the `.ok (some e)` outcome.  A
synchronously thrown exception (`.error`) is not caught anywhere and
crashes the run. -/
def runTests (env : Env) (req : String → Except String JsVal) (report : Report) :
    List Cand → Report × List (String × String) × Except String (Option String)
  | [] => (report, [], .ok none)
  | c :: rest =>
    match testModule env req report c with
    | (r₁, log, .error e) => (r₁, log, .error e)
    | (r₁, log, .ok .ok) =>
      match runTests env req r₁ rest with
      | (r₂, log₂, out) => (r₂, log ++ log₂, out)
    | (r₁, log, .ok (.err e)) => (r₁, log, .ok (some e))

def sentinelVersion : String := "?.?.?"

/-- The scan over `npm.commands.view`'s result object: the first own key
whose value has a non-empty `versions` array yields its LAST element. -/
def scanView : List (String × Option (List String)) → Option String
  | [] => none
  | (_, some (v :: vs)) :: _ => some ((v :: vs).getLast (List.cons_ne_nil v vs))
  | _ :: rest => scanView rest

/-- `getVersion(obj, cb)` inside `getLatestVersions` (src/index.js lines
559-585, same code as src/lib/version.js `getVersion`): skip candidates
without a truthy name; `npm.load` or `npm.commands.view` errors are passed
to `cb(err)` with `obj.latest` left untouched; on success `obj.latest` is
the last reported version, or the "?.?.?" sentinel when the response holds
no versions. -/
def getVersion (env : Env) (obj : Cand) : Cand × CbOut :=
  if truthyOS obj.name = false then (obj, .ok)
  else
    match env.npmLoadErr with
    | some e => (obj, .err e)
    | none =>
      match env.view (obj.name.getD "") with
      | .error e => (obj, .err e)
      | .ok data =>
        match scanView data with
        | some latest => ({obj with latest := some latest}, .ok)
        | none => ({obj with latest := some sentinelVersion}, .ok)

/-- src/index.js `getLatestVersions(testArray, parallel, cb)` (lines
555-592) at `parallel = 1`: `async.mapLimit` over `getVersion`; an error
passed by any iteratee stops the remaining lookups (their candidates keep
`latest` unset); `getLatestVersions`'s own callback then swallows the
error. -/
def getLatestVersions (env : Env) : List Cand → List Cand × Option String
  | [] => ([], none)
  | c :: rest =>
    match getVersion env c with
    | (c', .ok) =>
      match getLatestVersions env rest with
      | (rest', e) => (c' :: rest', e)
    | (c', .err e) => (c' :: rest, some e)

/-- A node of the dependency tree delivered by the external tree provider:
a `packageJson` path (absent when the dependency is not resolved on disk),
the declared-constraint mapping `dependencies`, and the child nodes, which
in JS live as further properties of the same object keyed by module
name. -/
inductive DepTree where
  | node (packageJson : Option String) (dependencies : List (String × String))
      (children : List (String × DepTree))

def DepTree.pj : DepTree → Option String
  | .node p _ _ => p

/-- `moduleTree[modName]` restricted to child nodes. -/
def lookupChild (key : String) : List (String × DepTree) → Option DepTree
  | [] => none
  | (k, c) :: rest => if key = k then some c else lookupChild key rest

theorem length_lt_sizeOf {α : Type} [SizeOf α] : ∀ l : List α, l.length < sizeOf l
  | [] => by simp
  | x :: rest => by
    have := length_lt_sizeOf rest
    simp only [List.length_cons, List.cons.sizeOf_spec]
    omega

theorem sizeOf_lookupChild {key : String} :
    ∀ {l : List (String × DepTree)} {c : DepTree}, lookupChild key l = some c →
      sizeOf c < sizeOf l := by
  intro l
  induction l with
  | nil => intro c h; simp [lookupChild] at h
  | cons hd rest ih =>
    intro c h
    by_cases hk : key = hd.1
    · obtain ⟨k, c'⟩ := hd
      simp only [lookupChild, hk, if_pos rfl] at h
      cases h
      simp only [List.cons.sizeOf_spec, Prod.mk.sizeOf_spec]
      omega
    · obtain ⟨k, c'⟩ := hd
      simp only [lookupChild, if_neg hk] at h
      have := ih h
      simp only [List.cons.sizeOf_spec]
      omega

mutual
/-- src/index.js `createTestArray(moduleTree, testArray)` (lines 725-744):
skip nodes without a truthy `packageJson`; otherwise push this node's
candidate, then walk the declared dependencies in order.  The accumulator
is threaded (JS pushes into a shared array). -/
def createTestArray (t : DepTree) (ver name : Option String) (testArray : List Cand) :
    List Cand :=
  match t with
  | .node packageJson dependencies children =>
    if truthyOS packageJson = false then testArray
    else
      ctaDeps dependencies children
        (testArray ++ [{packageJson := packageJson.getD "", ver := ver, name := name}])
termination_by 2 * sizeOf t
decreasing_by
  rename_i deps childs hcond
  have := length_lt_sizeOf deps
  simp only [DepTree.node.sizeOf_spec]
  omega

/-- The `for (var modName in moduleTree.dependencies)` loop.  When the
child node is missing or has no truthy `packageJson`, the source executes
`return` — which ends the WHOLE loop, not just this iteration, so the
dependencies declared after it are never visited.  Otherwise the child's
declared constraint and name are recorded on it and it is recursed into. -/
def ctaDeps (dependencies : List (String × String)) (children : List (String × DepTree))
    (testArray : List Cand) : List Cand :=
  match dependencies with
  | [] => testArray
  | (modName, verC) :: rest =>
    match h : lookupChild modName children with
    | none => testArray
    | some child =>
      if truthyOS child.pj = false then testArray
      else ctaDeps rest children (createTestArray child (some verC) (some modName) testArray)
termination_by 2 * sizeOf children + dependencies.length + 1
decreasing_by
  · have h1 := sizeOf_lookupChild h
    omega
  · simp only [List.length_cons]
    omega
end


/-! Concrete fixtures used by witnesses and counterexamples.  `envA` is a
representative environment: a semver oracle that accepts exactly "1.0.0"
and "2.0.0" (with "2.0.0" the greater), a registry that fails every lookup,
and child processes that exit 0. -/

def envA : Env := {
  processVersion := "v0.10.26"
  satisfies := fun _ _ => true
  semverValid := fun sv => sv == "1.0.0" || sv == "2.0.0"
  semverGtv := fun a bv => a == "2.0.0" && bv == "1.0.0"
  dirname := fun _ => "dirA"
  depChainOf := fun _ => "chainA"
  view := fun _ => .error "E404 not found"
  spawnExit := fun _ _ => 0 }

/-- `envA` with an engine constraint the environment does not satisfy. -/
def envSat : Env := { envA with satisfies := fun _ _ => false }

/-- `envA` with every `npm install` failing (exit 1) and `cwd` kept equal to
the manifest path. -/
def envFail : Env := { envA with dirname := fun p => p,
                                 spawnExit := fun _ cmd => if cmd = "install" then 1 else 0 }

/-- `envA` where only the install in directory "px" fails. -/
def envPx : Env := { envA with dirname := fun p => p,
                               spawnExit := fun cwd cmd =>
                                 if cwd = "px" && cmd = "install" then 1 else 0 }

/-- Manifest family with an engine.node constraint (and a test script, a
version, nothing else). -/
def mEngine (nm v c : String) : JsVal :=
  .o [("name", .s nm), ("version", .s v), ("scripts", .o [("test", .s "t")]),
      ("engine", .o [("node", .s c)])]

/-- Manifest with a test script but no version field. -/
def mAbsentVer (nm : String) : JsVal :=
  .o [("name", .s nm), ("scripts", .o [("test", .s "t")])]

/-- Manifest with a test script and the empty string as version. -/
def mEmptyVer (nm : String) : JsVal :=
  .o [("name", .s nm), ("version", .s ""), ("scripts", .o [("test", .s "t")])]

/-- Manifest with a test script and an arbitrary version string. -/
def mPlain (nm v : String) : JsVal :=
  .o [("name", .s nm), ("version", .s v), ("scripts", .o [("test", .s "t")])]

/-- Manifest with a version but no scripts section (not testable). -/
def mNoScripts (nm v : String) : JsVal := .o [("name", .s nm), ("version", .s v)]

/-- The version entry of `report[nameKey][verKey]`. -/
def getMR (r : Report) (nameKey verKey : String) : Option MReport :=
  (lookupAssoc r.modules nameKey).bind fun nr => lookupAssoc nr.versions verKey

/-- Manifest with a name and a test script but no version at all. -/
def mNoVerTest : JsVal := .o [("name", .s "x"), ("scripts", .o [("test", .s "mocha")])]

def reqNVT : String → Except String JsVal := fun p =>
  if p = "p" then .ok mNoVerTest else .error "nf"

def candP : Cand := {packageJson := "p"}

/-- Manifest with a name only. -/
def mNameOnly : JsVal := .o [("name", .s "x")]

def reqNameOnly : String → Except String JsVal := fun p =>
  if p = "p" then .ok mNameOnly else .error "nf"

def mX : JsVal := .o [("name", .s "x"), ("version", .s "1.0.0"), ("scripts", .o [("test", .s "t")])]
def mY : JsVal := .o [("name", .s "y"), ("version", .s "1.0.0"), ("scripts", .o [("test", .s "t")])]

def reqXY : String → Except String JsVal := fun p =>
  if p = "px" then .ok mX else if p = "py" then .ok mY else .error "nf"

/-- A tree whose root declares dependencies "a" then "b", where "a" has no
child node on disk but "b" does. -/
def treeMissingChild : DepTree :=
  .node (some "r.json") [("a", "^1.0.0"), ("b", "^2.0.0")]
    [("b", .node (some "b.json") [] [])]

/-- A fully resolved tree: root -> a (which has child c) and b. -/
def treeChain : DepTree :=
  .node (some "r") [("a", "1"), ("b", "2")]
    [("a", .node (some "pa") [("c", "3")] [("c", .node (some "pc") [] [])]),
     ("b", .node (some "pb") [] [])]

/-- A report that has already seen module "x" at version "1.0.0". -/
def mrSeen : MReport := { refCount := some 1 }
def nrSeen : NameReport := { refCount := some 1, versions := [("1.0.0", mrSeen)] }
def rSeen : Report := { modules := [("x", nrSeen)] }

def mDedup : JsVal := .o [("name", .s "x"), ("version", .s "1.0.0")]

def reqW : String → Except String JsVal := fun _ => .ok (mPlain "x" "1.0.0")
def reqNS : String → Except String JsVal := fun _ => .ok (mNoScripts "x" "1.0.0")
def reqNSbad : String → Except String JsVal := fun _ => .ok (mNoScripts "x" "bad")

/-! Helper lemmas. -/

theorem getPropertyValGo_of_resolveOpt (defaultVal : JsVal) :
    ∀ (path : List String) (cur v : JsVal), resolveOpt cur path = some v →
      getPropertyValGo defaultVal path cur = v := by
  intro path
  induction path with
  | nil => intro cur v h; simpa [resolveOpt, getPropertyValGo] using h
  | cons p rest ih =>
    intro cur v h
    cases cur with
    | b bv => simp [resolveOpt] at h
    | s sv => simp [resolveOpt] at h
    | o fields =>
      simp only [resolveOpt] at h
      cases hl : lookupAssoc fields p with
      | none => rw [hl] at h; simp at h
      | some w =>
        rw [hl] at h
        simpa [getPropertyValGo, hl] using ih w v h

theorem lookupAssoc_setAssoc_self {α : Type} (l : List (String × α)) (k : String) (v : α) :
    lookupAssoc (setAssoc l k v) k = some v := by
  induction l with
  | nil => simp [setAssoc, lookupAssoc]
  | cons hd tl ih =>
    obtain ⟨k', w⟩ := hd
    by_cases hk : k = k'
    · simp [setAssoc, lookupAssoc, hk]
    · simp [setAssoc, lookupAssoc, hk, ih]

theorem ctaDeps_extends :
    ∀ (deps : List (String × String)) (children : List (String × DepTree)) (acc : List Cand),
      ∃ tail, ctaDeps deps children acc = acc ++ tail := by
  refine ctaDeps.induct
    (fun t ver name acc => ∃ tail, createTestArray t ver name acc = acc ++ tail)
    (fun deps children acc => ∃ tail, ctaDeps deps children acc = acc ++ tail)
    ?_ ?_ ?_ ?_ ?_ ?_
  · intro ver name acc p deps children hp
    refine ⟨[], ?_⟩
    rw [createTestArray, if_pos hp]
    simp
  · intro ver name acc p deps children hp ih
    obtain ⟨tail2, h2⟩ := ih
    refine ⟨{packageJson := p.getD "", ver := ver, name := name} :: tail2, ?_⟩
    rw [createTestArray]
    simp only [if_neg hp, h2, List.append_assoc, List.singleton_append]
  · intro children acc
    refine ⟨[], ?_⟩
    rw [ctaDeps]
    simp
  · intro children acc modName verC rest hnone
    refine ⟨[], ?_⟩
    rw [ctaDeps]
    split
    · simp
    · rename_i child heq
      rw [hnone] at heq
      cases heq
  · intro children acc modName verC rest child hsome hpj
    refine ⟨[], ?_⟩
    rw [ctaDeps]
    split
    · simp
    · rename_i child' heq
      rw [hsome] at heq
      cases heq
      rw [if_pos hpj]
      simp
  · intro children acc modName verC rest child hsome hpj ih1 ih2
    obtain ⟨t1, h1⟩ := ih1
    obtain ⟨t2, h2⟩ := ih2
    refine ⟨t1 ++ t2, ?_⟩
    rw [ctaDeps]
    split
    · rename_i heq
      rw [hsome] at heq
      cases heq
    · rename_i child' heq
      rw [hsome] at heq
      cases heq
      rw [if_neg hpj, h2, h1]
      simp

theorem cta_extends :
    ∀ (t : DepTree) (ver name : Option String) (acc : List Cand),
      ∃ tail, createTestArray t ver name acc = acc ++ tail := by
  refine createTestArray.induct
    (fun t ver name acc => ∃ tail, createTestArray t ver name acc = acc ++ tail)
    (fun deps children acc => ∃ tail, ctaDeps deps children acc = acc ++ tail)
    ?_ ?_ ?_ ?_ ?_ ?_
  · intro ver name acc p deps children hp
    refine ⟨[], ?_⟩
    rw [createTestArray, if_pos hp]
    simp
  · intro ver name acc p deps children hp ih
    obtain ⟨tail2, h2⟩ := ih
    refine ⟨{packageJson := p.getD "", ver := ver, name := name} :: tail2, ?_⟩
    rw [createTestArray]
    simp only [if_neg hp, h2, List.append_assoc, List.singleton_append]
  · intro children acc
    refine ⟨[], ?_⟩
    rw [ctaDeps]
    simp
  · intro children acc modName verC rest hnone
    refine ⟨[], ?_⟩
    rw [ctaDeps]
    split
    · simp
    · rename_i child heq
      rw [hnone] at heq
      cases heq
  · intro children acc modName verC rest child hsome hpj
    refine ⟨[], ?_⟩
    rw [ctaDeps]
    split
    · simp
    · rename_i child' heq
      rw [hsome] at heq
      cases heq
      rw [if_pos hpj]
      simp
  · intro children acc modName verC rest child hsome hpj ih1 ih2
    obtain ⟨t1, h1⟩ := ih1
    obtain ⟨t2, h2⟩ := ih2
    refine ⟨t1 ++ t2, ?_⟩
    rw [ctaDeps]
    split
    · rename_i heq
      rw [hsome] at heq
      cases heq
    · rename_i child' heq
      rw [hsome] at heq
      cases heq
      rw [if_neg hpj, h2, h1]
      simp

/-! Claim C1. -/

/-- Claim C1, counterexample.  Two candidates resolving to the same
versionless manifest (identical (name, version) with the version absent)
defeat the dedup check: the "seen before" lookup uses the raw
`module.version` (key "undefined") while the first encounter stored the
entry under "NO_VERSION".  Processing the same candidate twice therefore
spawns the install/test pair TWICE (four external processes), and the
second encounter re-creates the version entry, leaving its refCount at 1
instead of 2 — refuting "exactly one ModuleVersionReport ... no external
install/test process is spawned for the duplicate encounters". -/
theorem runTests_unversioned_duplicate_retested_cex :
    (runTests envA reqNVT {} [candP, candP]).2.1 =
      [("dirA", "install"), ("dirA", "test"), ("dirA", "install"), ("dirA", "test")] ∧
    ((lookupAssoc (runTests envA reqNVT {} [candP, candP]).1.modules "x").bind
        (fun nr => lookupAssoc nr.versions NO_VERSION)).map MReport.refCount =
      some (some 1) ∧
    ((runTests envA reqNVT {} [candP, candP]).1.modules.map
        (fun pr => (pr.1, pr.2.versions.map Prod.fst))) = [("x", [NO_VERSION])] := by
  refine ⟨rfl, rfl, rfl⟩

/-- Claim C1, amended: for manifests whose name AND version are present and
non-empty, the dedup works as claimed — when `report[name][version]`
already exists, `inspectModule` returns false and changes nothing except
incrementing the refCount of the name-level aggregate and of the
version-level report, and `testModule` spawns no external process for the
duplicate encounter. -/
theorem inspectModule_dedup_bumps_refcounts (env : Env) (req : String → Except String JsVal)
    (m : JsVal) (r : Report) (nm v : String) (nr : NameReport) (mr : MReport) (c : Cand)
    (hn : nm ≠ "") (hv : v ≠ "")
    (hname : jsGet m "name" = some (.s nm))
    (hver : jsGet m "version" = some (.s v))
    (hnr : lookupAssoc r.modules nm = some nr)
    (hmr : lookupAssoc nr.versions v = some mr)
    (hreq : req c.packageJson = .ok m) :
    inspectModule env m r =
      (putNameVer r nm v {nr with refCount := incOpt nr.refCount}
        {mr with refCount := incOpt mr.refCount}, .ok false) ∧
    (testModule env req r c).2.1 = [] := by
  have hbn : (nm == "") = false := beq_eq_false_iff_ne.mpr hn
  have hbv : (v == "") = false := beq_eq_false_iff_ne.mpr hv
  have hins : inspectModule env m r =
      (putNameVer r nm v {nr with refCount := incOpt nr.refCount}
        {mr with refCount := incOpt mr.refCount}, .ok false) := by
    simp [inspectModule, hname, hver, truthyO, truthy, hbn, jsKeyRaw, jsToString, hnr, hmr]
  refine ⟨hins, ?_⟩
  simp only [testModule, hreq, hins]
  split
  · rfl
  · split
    · rfl
    · split <;> simp

theorem inspectModule_dedup_bumps_refcounts_witness :
    inspectModule envA mDedup rSeen =
      (putNameVer rSeen "x" "1.0.0" {nrSeen with refCount := incOpt nrSeen.refCount}
        {mrSeen with refCount := incOpt mrSeen.refCount}, .ok false) ∧
    (testModule envA (fun _ => .ok mDedup) rSeen {packageJson := "p"}).2.1 = [] :=
  inspectModule_dedup_bumps_refcounts envA (fun _ => .ok mDedup) mDedup rSeen "x" "1.0.0"
    nrSeen mrSeen {packageJson := "p"} (by decide) (by decide) rfl rfl rfl rfl rfl

/-! Claim C2. -/

/-- Claim C2: the claim describes the intended classification of declared
constraint strings, but `checkDepVersions` passes its `_.forOwn` callback
parameters in the wrong order (lodash calls it with (value, key)), so it
classifies the dependency NAME instead of the constraint.  Evaluated at the
failing inputs: a dependency declared as "*" produces NO finding (claim:
exactly one error); one declared as "~1.2.0" produces NO finding (claim: a
warning); and a dependency whose NAME matches /^~(.)+/ reaches
`mreport.warning.push` — a property that never exists — and throws a
TypeError instead of returning normally. -/
theorem checkDepVersions_wildcard_constraint_unflagged :
    checkDepVersions (.o [("name", .s "x"), ("dependencies", .o [("foo", .s "*")])])
        "dependencies" {} = ({}, none) ∧
    checkDepVersions (.o [("name", .s "x"), ("dependencies", .o [("foo", .s "~1.2.0")])])
        "dependencies" {} = ({}, none) ∧
    (checkDepVersions (.o [("dependencies", .o [("~foo", .s "1.0.0")])])
        "dependencies" {}).2 = some typeErrPush := by
  refine ⟨rfl, rfl, rfl⟩

/-! Claim C3. -/

/-- Claim C3: contrary to the claim, a parse failure does crash the run.
`main` creates the process-wide report as `{}` with no `errors` array, so
the `report.errors.push(...)` in `testModule`'s catch block throws a
TypeError (which nothing catches), instead of recording the entry and
continuing; in a batch, the candidates after the failing one are never
processed. -/
theorem testModule_parse_failure_throws :
    testModule envA (fun _ => .error "SyntaxError") {} {packageJson := "bad"} =
      ({}, [], .error typeErrPush) ∧
    runTests envA (fun p => if p = "py" then .ok mY else .error "SyntaxError") {}
        [{packageJson := "bad"}, {packageJson := "py"}] =
      ({}, [], .error typeErrPush) := by
  refine ⟨rfl, rfl⟩

/-! Claim C4. -/

/-- Claim C4, counterexample.  With two testable candidates and the first
install exiting non-zero, the error handed to `cb` makes `async.mapLimit`
stop: the only spawned process is the first install, and the second
candidate's module never appears in the report — refuting "the remaining
candidates of the batch are still processed". -/
theorem runTests_install_failure_stops_batch_cex :
    (runTests envPx reqXY {} [{packageJson := "px"}, {packageJson := "py"}]).2.1 =
      [("px", "install")] ∧
    (runTests envPx reqXY {} [{packageJson := "px"}, {packageJson := "py"}]).2.2 =
      .ok (some "exited with code: 1") ∧
    (lookupAssoc (runTests envPx reqXY {}
        [{packageJson := "px"}, {packageJson := "py"}]).1.modules "y").isNone = true := by
  refine ⟨rfl, rfl, rfl⟩

/-- Claim C4, amended: when a testable candidate's install step exits with a
non-zero code, its test step is not run, the outcome stays a failed test
(`testsPassing` remains false, no separate error category) and no exception
is thrown — but the error is passed to the candidate's callback, which
makes `async.mapLimit` stop scheduling the remaining candidates of the
batch (here at parallel = 1: they are not processed at all); `runTests`
itself swallows the error and completes normally. -/
theorem testModule_install_failure_skips_test (env : Env) (req : String → Except String JsVal)
    (nm v : String) (c : Cand) (rest : List Cand) (k : Int)
    (hn : nm ≠ "") (hv : v ≠ "") (hcl : c.latest = none)
    (hreq : req c.packageJson = .ok (mPlain nm v))
    (hinstall : env.spawnExit (env.dirname c.packageJson) "install" = k) (hk : k ≠ 0) :
    (testModule env req {} c).2.1 = [(env.dirname c.packageJson, "install")] ∧
    (testModule env req {} c).2.2 = .ok (.err ("exited with code: " ++ toString k)) ∧
    (getMR (testModule env req {} c).1 nm v).map MReport.testsPassing = some (some false) ∧
    runTests env req {} (c :: rest) =
      ((testModule env req {} c).1, [(env.dirname c.packageJson, "install")],
       .ok (some ("exited with code: " ++ toString k))) := by
  have hbn : (nm == "") = false := beq_eq_false_iff_ne.mpr hn
  have hbv : (v == "") = false := beq_eq_false_iff_ne.mpr hv
  have hbk : (k == 0) = false := beq_eq_false_iff_ne.mpr hk
  have e1 : splitDot "scripts.test" = ["scripts", "test"] := rfl
  have e2 : splitDot "version" = ["version"] := rfl
  have e3 : splitDot "repository.url" = ["repository", "url"] := rfl
  have e4 : splitDot "bugs.url" = ["bugs", "url"] := rfl
  have e5 : splitDot "homepage" = ["homepage"] := rfl
  have e6 : splitDot "license" = ["license"] := rfl
  have r1 : replaceFirstDot "scripts.test" = "scripts_test" := rfl
  have r2 : replaceFirstDot "version" = "version" := rfl
  have r3 : replaceFirstDot "repository.url" = "repository_url" := rfl
  have r4 : replaceFirstDot "bugs.url" = "bugs_url" := rfl
  have r5 : replaceFirstDot "homepage" = "homepage" := rfl
  have r6 : replaceFirstDot "license" = "license" := rfl
  by_cases hnv : v = "NO_VERSION"
  · subst hnv
    cases hsv : env.semverValid "NO_VERSION"
    all_goals refine ⟨?_, ?_, ?_, ?_⟩
    all_goals simp +decide [runTests, testModule, inspectModule, inspectNew, mPlain, jsGet,
      jsGet2, jsKeyRaw, jsToString, truthyO, truthy, truthyOS, lookupAssoc, setAssoc, checkAttr,
      getPropertyVal, getPropertyValGo, isFalseLit, isStrEq, validJs, checkDepVersions,
      objFields, depFindings, toDoChecks, putNameVer, putName, NO_VERSION,
      latestStep, semverGt, outdatedMsg, truthyNum, incOpt, getMR, hreq, hcl, hinstall,
      e1, e2, e3, e4, e5, e6, r1, r2, r3, r4, r5, r6, hbn, hbk, hsv]
  · have hbnv : (v == "NO_VERSION") = false := beq_eq_false_iff_ne.mpr hnv
    cases hsv : env.semverValid v
    all_goals refine ⟨?_, ?_, ?_, ?_⟩
    all_goals simp +decide [runTests, testModule, inspectModule, inspectNew, mPlain, jsGet,
      jsGet2, jsKeyRaw, jsToString, truthyO, truthy, truthyOS, lookupAssoc, setAssoc, checkAttr,
      getPropertyVal, getPropertyValGo, isFalseLit, isStrEq, validJs, checkDepVersions,
      objFields, depFindings, toDoChecks, putNameVer, putName, NO_VERSION,
      latestStep, semverGt, outdatedMsg, truthyNum, incOpt, getMR, hreq, hcl, hinstall,
      e1, e2, e3, e4, e5, e6, r1, r2, r3, r4, r5, r6, hbn, hbv, hbnv, hbk, hsv]

theorem testModule_install_failure_skips_test_witness :
    (1 : Int) ≠ 0 ∧
    ((testModule envFail reqW {} {packageJson := "p"}).2.1 = [(envFail.dirname "p", "install")] ∧
     (testModule envFail reqW {} {packageJson := "p"}).2.2 =
       .ok (.err ("exited with code: " ++ toString (1 : Int))) ∧
     (getMR (testModule envFail reqW {} {packageJson := "p"}).1 "x" "1.0.0").map
       MReport.testsPassing = some (some false) ∧
     runTests envFail reqW {} ({packageJson := "p"} :: [{packageJson := "q"}]) =
       ((testModule envFail reqW {} {packageJson := "p"}).1, [(envFail.dirname "p", "install")],
        .ok (some ("exited with code: " ++ toString (1 : Int))))) :=
  ⟨by decide, testModule_install_failure_skips_test envFail reqW "x" "1.0.0"
    {packageJson := "p"} [{packageJson := "q"}] 1 (by decide) (by decide) rfl rfl rfl (by decide)⟩

/-! Claim C5. -/

/-- Claim C5, counterexample.  In `createTestArray`, a declared dependency
whose child node is missing executes `return`, ending the whole loop: with
dependencies ["a" (no child), "b" (resolved)] only the root candidate is
produced and the sibling "b" declared AFTER the missing child is never
visited — refuting "sibling dependencies declared after it are still
visited". -/
theorem createTestArray_missing_child_drops_sibling_cex :
    createTestArray treeMissingChild none none [] = [{packageJson := "r.json"}] := by
  simp [createTestArray, ctaDeps, treeMissingChild, lookupChild, truthyOS]

/-- Claim C5, amended: a node without a truthy manifest path contributes
nothing; a node with one pushes exactly its {packageJson, ver, name}
candidate before its dependencies' candidates; a declared dependency whose
child node is missing, or has no truthy manifest path, terminates the
processing of the ENTIRE remaining dependency list of that node (subsequent
siblings are not visited); on a fully resolved tree the traversal is
depth-first in dependency-declaration order, each child carrying its
declared constraint string. -/
theorem createTestArray_flattening :
    (∀ (deps : List (String × String)) (children : List (String × DepTree))
        (ver name : Option String) (acc : List Cand),
      createTestArray (.node none deps children) ver name acc = acc) ∧
    (∀ (pj : Option String) (deps : List (String × String))
        (children : List (String × DepTree)) (ver name : Option String) (acc : List Cand),
      truthyOS pj = true →
      ∃ tail, createTestArray (.node pj deps children) ver name acc =
        acc ++ [{packageJson := pj.getD "", ver := ver, name := name}] ++ tail) ∧
    (∀ (modName verC : String) (rest : List (String × String))
        (children : List (String × DepTree)) (acc : List Cand),
      lookupChild modName children = none →
      ctaDeps ((modName, verC) :: rest) children acc = acc) ∧
    (∀ (modName verC : String) (rest : List (String × String))
        (children : List (String × DepTree)) (child : DepTree) (acc : List Cand),
      lookupChild modName children = some child → truthyOS child.pj = false →
      ctaDeps ((modName, verC) :: rest) children acc = acc) ∧
    createTestArray treeChain none none [] =
      [{packageJson := "r"}, {packageJson := "pa", ver := some "1", name := some "a"},
       {packageJson := "pc", ver := some "3", name := some "c"},
       {packageJson := "pb", ver := some "2", name := some "b"}] := by
  refine ⟨?_, ?_, ?_, ?_, ?_⟩
  · intro deps children ver name acc
    simp [createTestArray, truthyOS]
  · intro pj deps children ver name acc hpj
    obtain ⟨tail2, h2⟩ := ctaDeps_extends deps children
      (acc ++ [{packageJson := pj.getD "", ver := ver, name := name}])
    refine ⟨tail2, ?_⟩
    rw [createTestArray]
    rw [if_neg (by simp [hpj])]
    rw [h2]
  · intro modName verC rest children acc hnone
    rw [ctaDeps]
    split
    · rfl
    · rename_i child heq
      rw [hnone] at heq
      cases heq
  · intro modName verC rest children child acc hsome hpj
    rw [ctaDeps]
    split
    · rfl
    · rename_i child' heq
      rw [hsome] at heq
      cases heq
      rw [if_pos hpj]
  · simp +decide [createTestArray, ctaDeps, treeChain, lookupChild, truthyOS, DepTree.pj]

theorem createTestArray_flattening_witness :
    createTestArray (.node none [("a", "1")] []) none none [] = [] ∧
    ctaDeps [("a", "1")] [] [] = [] :=
  ⟨createTestArray_flattening.1 [("a", "1")] [] none none [],
   createTestArray_flattening.2.2.1 "a" "1" [] [] [] rfl⟩

/-! Claim C6. -/

/-- Claim C6, counterexample.  On a registry lookup error, `getVersion`
passes the error to its callback and leaves `obj.latest` UNSET — it does
not set the "?.?.?" unknown sentinel and the error does reach the
resolver's per-candidate caller (`async.mapLimit`), refuting the claimed
graceful degradation. -/
theorem getVersion_registry_error_cex :
    getVersion envA {packageJson := "p", name := some "x"} =
      ({packageJson := "p", name := some "x"}, .err "E404 not found") := by
  rfl

/-- Claim C6, amended: on a registry (or npm.load) error, `getVersion`
hands the error to its callback with the candidate's `latest` left unset
(stopping the remaining lookups of the batch, though `getLatestVersions`
itself then swallows the error); a candidate without a truthy name is
skipped without error; on a successful lookup `latest` is the LAST entry of
the version list of the first key carrying one; the "?.?.?" sentinel is set
only when the lookup succeeds but reports no versions. -/
theorem getVersion_best_effort :
    (∀ (env : Env) (obj : Cand) (e : String),
      truthyOS obj.name = true → env.npmLoadErr = none →
      env.view (obj.name.getD "") = .error e →
      getVersion env obj = (obj, .err e)) ∧
    (∀ (env : Env) (obj : Cand),
      truthyOS obj.name = false → getVersion env obj = (obj, .ok)) ∧
    (∀ (env : Env) (obj : Cand) (k v : String) (vs : List String),
      truthyOS obj.name = true → env.npmLoadErr = none →
      env.view (obj.name.getD "") = .ok [(k, some (v :: vs))] →
      getVersion env obj =
        ({obj with latest := some ((v :: vs).getLast (List.cons_ne_nil v vs))}, .ok)) ∧
    (∀ (env : Env) (obj : Cand),
      truthyOS obj.name = true → env.npmLoadErr = none →
      env.view (obj.name.getD "") = .ok [] →
      getVersion env obj = ({obj with latest := some sentinelVersion}, .ok)) := by
  refine ⟨?_, ?_, ?_, ?_⟩
  · intro env obj e hname hload hview
    simp [getVersion, hname, hload, hview]
  · intro env obj hname
    simp [getVersion, hname]
  · intro env obj k v vs hname hload hview
    simp [getVersion, hname, hload, hview, scanView]
  · intro env obj hname hload hview
    simp [getVersion, hname, hload, hview, scanView]

theorem getVersion_best_effort_witness :
    getVersion envA {packageJson := "p", name := some "n"} =
      ({packageJson := "p", name := some "n"}, .err "E404 not found") ∧
    getVersion envA {packageJson := "p"} = ({packageJson := "p"}, .ok) :=
  ⟨getVersion_best_effort.1 envA {packageJson := "p", name := some "n"} "E404 not found"
     rfl rfl rfl,
   getVersion_best_effort.2.1 envA {packageJson := "p"} rfl⟩

/-! Claim C7. -/

/-- Claim C7, counterexample.  `testModule` does NOT return normally for
every pair of version strings: for a versionless manifest (declared version
"NO_VERSION") carrying a resolved latest "1.0.0", `semver.gt` throws
`Invalid Version` and the exception propagates out of `testModule`. -/
theorem testModule_invalid_version_gt_throws_cex :
    (testModule envA reqNameOnly {} {packageJson := "p", latest := some "1.0.0"}).2.2 =
      .error ("Invalid Version: " ++ NO_VERSION) := by
  rfl

/-- Claim C7, amended: when both the declared version and the resolved
latest are valid semver, the "outdated" warning is appended if and only if
the latest strictly exceeds the declared version, the latest is recorded on
the (still unset) `mreport.latest`, and `testModule` returns normally; when
either string is not valid semver, `semver.gt` throws and `testModule`
propagates the exception instead of returning. -/
theorem testModule_outdated_warning_iff_gt :
    (∀ (env : Env) (req : String → Except String JsVal) (nm v L : String) (c : Cand),
      nm ≠ "" → v ≠ "" → L ≠ "" → c.latest = some L →
      req c.packageJson = .ok (mNoScripts nm v) →
      env.semverValid v = true → env.semverValid L = true →
      (testModule env req {} c).2.2 = .ok .ok ∧
      (getMR (testModule env req {} c).1 nm v).map MReport.latest = some (some L) ∧
      (getMR (testModule env req {} c).1 nm v).map MReport.warnings =
        some (["package.json missing: repository.url", "package.json missing: bugs.url",
               "package.json missing: homepage", "package.json missing: license"] ++
              (if env.semverGtv L v then
                ["version " ++ v ++ " is outdated, the latest version is: " ++ L] else []))) ∧
    (∀ (env : Env) (req : String → Except String JsVal) (nm v L : String) (c : Cand),
      nm ≠ "" → v ≠ "" → L ≠ "" → c.latest = some L →
      req c.packageJson = .ok (mNoScripts nm v) →
      env.semverValid v = false → env.semverValid L = true →
      (testModule env req {} c).2.2 = .error ("Invalid Version: " ++ v)) := by
  constructor
  · intro env req nm v L c hn hv hL hcl hreq hvv hvL
    have hbn : (nm == "") = false := beq_eq_false_iff_ne.mpr hn
    have hbv : (v == "") = false := beq_eq_false_iff_ne.mpr hv
    have hbL : (L == "") = false := beq_eq_false_iff_ne.mpr hL
    have e1 : splitDot "scripts.test" = ["scripts", "test"] := rfl
    have e2 : splitDot "version" = ["version"] := rfl
    have e3 : splitDot "repository.url" = ["repository", "url"] := rfl
    have e4 : splitDot "bugs.url" = ["bugs", "url"] := rfl
    have e5 : splitDot "homepage" = ["homepage"] := rfl
    have e6 : splitDot "license" = ["license"] := rfl
    have r1 : replaceFirstDot "scripts.test" = "scripts_test" := rfl
    have r2 : replaceFirstDot "version" = "version" := rfl
    have r3 : replaceFirstDot "repository.url" = "repository_url" := rfl
    have r4 : replaceFirstDot "bugs.url" = "bugs_url" := rfl
    have r5 : replaceFirstDot "homepage" = "homepage" := rfl
    have r6 : replaceFirstDot "license" = "license" := rfl
    by_cases hnv : v = "NO_VERSION"
    · subst hnv
      cases hg : env.semverGtv L "NO_VERSION"
      all_goals refine ⟨?_, ?_, ?_⟩
      all_goals simp +decide [testModule, inspectModule, inspectNew, mNoScripts, jsGet, jsGet2,
        jsKeyRaw, jsToString, truthyO, truthy, truthyOS, lookupAssoc, setAssoc, checkAttr,
        getPropertyVal, getPropertyValGo, isFalseLit, isStrEq, validJs, checkDepVersions,
        objFields, depFindings, toDoChecks, putNameVer, putName, NO_VERSION,
        latestStep, semverGt, outdatedMsg, truthyNum, incOpt, getMR, hreq, hcl,
        e1, e2, e3, e4, e5, e6, r1, r2, r3, r4, r5, r6, hbn, hbL, hvv, hvL, hg]
    · have hbnv : (v == "NO_VERSION") = false := beq_eq_false_iff_ne.mpr hnv
      cases hg : env.semverGtv L v
      all_goals refine ⟨?_, ?_, ?_⟩
      all_goals simp +decide [testModule, inspectModule, inspectNew, mNoScripts, jsGet, jsGet2,
        jsKeyRaw, jsToString, truthyO, truthy, truthyOS, lookupAssoc, setAssoc, checkAttr,
        getPropertyVal, getPropertyValGo, isFalseLit, isStrEq, validJs, checkDepVersions,
        objFields, depFindings, toDoChecks, putNameVer, putName, NO_VERSION,
        latestStep, semverGt, outdatedMsg, truthyNum, incOpt, getMR, hreq, hcl,
        e1, e2, e3, e4, e5, e6, r1, r2, r3, r4, r5, r6, hbn, hbv, hbL, hbnv, hvv, hvL, hg]
  · intro env req nm v L c hn hv hL hcl hreq hvv hvL
    have hbn : (nm == "") = false := beq_eq_false_iff_ne.mpr hn
    have hbv : (v == "") = false := beq_eq_false_iff_ne.mpr hv
    have hbL : (L == "") = false := beq_eq_false_iff_ne.mpr hL
    have e1 : splitDot "scripts.test" = ["scripts", "test"] := rfl
    have e2 : splitDot "version" = ["version"] := rfl
    have e3 : splitDot "repository.url" = ["repository", "url"] := rfl
    have e4 : splitDot "bugs.url" = ["bugs", "url"] := rfl
    have e5 : splitDot "homepage" = ["homepage"] := rfl
    have e6 : splitDot "license" = ["license"] := rfl
    have r1 : replaceFirstDot "scripts.test" = "scripts_test" := rfl
    have r2 : replaceFirstDot "version" = "version" := rfl
    have r3 : replaceFirstDot "repository.url" = "repository_url" := rfl
    have r4 : replaceFirstDot "bugs.url" = "bugs_url" := rfl
    have r5 : replaceFirstDot "homepage" = "homepage" := rfl
    have r6 : replaceFirstDot "license" = "license" := rfl
    by_cases hnv : v = "NO_VERSION"
    · subst hnv
      simp +decide [testModule, inspectModule, inspectNew, mNoScripts, jsGet, jsGet2,
        jsKeyRaw, jsToString, truthyO, truthy, truthyOS, lookupAssoc, setAssoc, checkAttr,
        getPropertyVal, getPropertyValGo, isFalseLit, isStrEq, validJs, checkDepVersions,
        objFields, depFindings, toDoChecks, putNameVer, putName, NO_VERSION,
        latestStep, semverGt, outdatedMsg, truthyNum, incOpt, getMR, hreq, hcl,
        e1, e2, e3, e4, e5, e6, r1, r2, r3, r4, r5, r6, hbn, hbL, hvv, hvL]
    · have hbnv : (v == "NO_VERSION") = false := beq_eq_false_iff_ne.mpr hnv
      simp +decide [testModule, inspectModule, inspectNew, mNoScripts, jsGet, jsGet2,
        jsKeyRaw, jsToString, truthyO, truthy, truthyOS, lookupAssoc, setAssoc, checkAttr,
        getPropertyVal, getPropertyValGo, isFalseLit, isStrEq, validJs, checkDepVersions,
        objFields, depFindings, toDoChecks, putNameVer, putName, NO_VERSION,
        latestStep, semverGt, outdatedMsg, truthyNum, incOpt, getMR, hreq, hcl,
        e1, e2, e3, e4, e5, e6, r1, r2, r3, r4, r5, r6, hbn, hbv, hbL, hbnv, hvv, hvL]

theorem testModule_outdated_warning_iff_gt_witness :
    ((testModule envA reqNS {} {packageJson := "p", latest := some "2.0.0"}).2.2 = .ok .ok ∧
     (getMR (testModule envA reqNS {} {packageJson := "p", latest := some "2.0.0"}).1
        "x" "1.0.0").map MReport.latest = some (some "2.0.0") ∧
     (getMR (testModule envA reqNS {} {packageJson := "p", latest := some "2.0.0"}).1
        "x" "1.0.0").map MReport.warnings =
       some (["package.json missing: repository.url", "package.json missing: bugs.url",
              "package.json missing: homepage", "package.json missing: license"] ++
             (if envA.semverGtv "2.0.0" "1.0.0" then
               ["version " ++ "1.0.0" ++ " is outdated, the latest version is: " ++ "2.0.0"]
              else []))) ∧
    (testModule envA reqNSbad {} {packageJson := "p", latest := some "2.0.0"}).2.2 =
      .error ("Invalid Version: " ++ "bad") :=
  ⟨testModule_outdated_warning_iff_gt.1 envA reqNS "x" "1.0.0" "2.0.0"
     {packageJson := "p", latest := some "2.0.0"} (by decide) (by decide) (by decide)
     rfl rfl rfl rfl,
   testModule_outdated_warning_iff_gt.2 envA reqNSbad "x" "bad" "2.0.0"
     {packageJson := "p", latest := some "2.0.0"} (by decide) (by decide) (by decide)
     rfl rfl rfl rfl⟩

/-! Claim C8. -/

/-- Claim C8: a manifest with the version field absent or equal to "" is
tracked under the sentinel key NO_VERSION, with no semver-compliance error
(the only error for the absent case is the unrelated "package.json missing:
version"); a manifest with a present, truthy, non-"NO_VERSION" version that
the semver oracle rejects receives exactly the one "version is not
semver-compliant" error, and `inspectModule` still returns normally
(traversal continues). -/
theorem inspectModule_no_version_tracking (env : Env) (nm v : String) (hn : nm ≠ "")
    (hv : v ≠ "") (hnv : v ≠ "NO_VERSION") (hinvalid : env.semverValid v = false) :
    ((getMR (inspectModule env (mAbsentVer nm) {}).1 nm NO_VERSION).map MReport.errors =
        some ["package.json missing: version"]) ∧
    ((getMR (inspectModule env (mEmptyVer nm) {}).1 nm NO_VERSION).map MReport.errors =
        some []) ∧
    ((getMR (inspectModule env (mPlain nm v) {}).1 nm v).map MReport.errors =
        some ["package.json: version is not semver-compliant: " ++ v]) ∧
    (inspectModule env (mPlain nm v) {}).2 = .ok true := by
  have hbn : (nm == "") = false := beq_eq_false_iff_ne.mpr hn
  have hbv : (v == "") = false := beq_eq_false_iff_ne.mpr hv
  have hbnv : (v == "NO_VERSION") = false := beq_eq_false_iff_ne.mpr hnv
  have e1 : splitDot "scripts.test" = ["scripts", "test"] := rfl
  have e2 : splitDot "version" = ["version"] := rfl
  have e3 : splitDot "repository.url" = ["repository", "url"] := rfl
  have e4 : splitDot "bugs.url" = ["bugs", "url"] := rfl
  have e5 : splitDot "homepage" = ["homepage"] := rfl
  have e6 : splitDot "license" = ["license"] := rfl
  have r1 : replaceFirstDot "scripts.test" = "scripts_test" := rfl
  have r2 : replaceFirstDot "version" = "version" := rfl
  have r3 : replaceFirstDot "repository.url" = "repository_url" := rfl
  have r4 : replaceFirstDot "bugs.url" = "bugs_url" := rfl
  have r5 : replaceFirstDot "homepage" = "homepage" := rfl
  have r6 : replaceFirstDot "license" = "license" := rfl
  refine ⟨?_, ?_, ?_, ?_⟩ <;>
    simp +decide [inspectModule, inspectNew, mAbsentVer, mEmptyVer, mPlain, jsGet, jsGet2,
      jsKeyRaw, jsToString, truthyO, truthy, lookupAssoc, setAssoc, checkAttr, getPropertyVal,
      getPropertyValGo, isFalseLit, isStrEq, validJs, checkDepVersions, objFields, depFindings,
      toDoChecks, putNameVer, putName, NO_VERSION, semverNonCompliantMsg, truthyNum, incOpt,
      getMR, e1, e2, e3, e4, e5, e6, r1, r2, r3, r4, r5, r6, hbn, hbv, hbnv, hinvalid]

theorem inspectModule_no_version_tracking_witness :
    envA.semverValid "abc" = false ∧
    (((getMR (inspectModule envA (mAbsentVer "x") {}).1 "x" NO_VERSION).map MReport.errors =
        some ["package.json missing: version"]) ∧
     ((getMR (inspectModule envA (mEmptyVer "x") {}).1 "x" NO_VERSION).map MReport.errors =
        some []) ∧
     ((getMR (inspectModule envA (mPlain "x" "abc") {}).1 "x" "abc").map MReport.errors =
        some ["package.json: version is not semver-compliant: " ++ "abc"]) ∧
     (inspectModule envA (mPlain "x" "abc") {}).2 = .ok true) :=
  ⟨rfl, inspectModule_no_version_tracking envA "x" "abc" (by decide) (by decide)
    (by decide) rfl⟩

/-! Claim C9. -/

/-- Claim C9: on a first-encounter manifest declaring an engine.node
constraint, `inspectModule` appends exactly one error when the current
runtime version does not satisfy the constraint — that error being the
string "version of Node.js (<process.version>) does not satisfy
engine.node: <constraint>", which contains both the constraint and the
detected environment version — and appends no such error (here: no error
at all) when the constraint is satisfied. -/
theorem inspectModule_engine_mismatch_error (env : Env) (nm v c : String) (hn : nm ≠ "")
    (hv : v ≠ "") (hc : c ≠ "") (hvalid : env.semverValid v = true) :
    (inspectModule env (mEngine nm v c) {}).2 = .ok true ∧
    (getMR (inspectModule env (mEngine nm v c) {}).1 nm v).map MReport.errors =
      some (if env.satisfies env.processVersion c then []
            else ["version of Node.js (" ++ env.processVersion
                    ++ ") does not satisfy engine.node: " ++ c]) := by
  have hbn : (nm == "") = false := beq_eq_false_iff_ne.mpr hn
  have hbv : (v == "") = false := beq_eq_false_iff_ne.mpr hv
  have hbc : (c == "") = false := beq_eq_false_iff_ne.mpr hc
  have e1 : splitDot "scripts.test" = ["scripts", "test"] := rfl
  have e2 : splitDot "version" = ["version"] := rfl
  have e3 : splitDot "repository.url" = ["repository", "url"] := rfl
  have e4 : splitDot "bugs.url" = ["bugs", "url"] := rfl
  have e5 : splitDot "homepage" = ["homepage"] := rfl
  have e6 : splitDot "license" = ["license"] := rfl
  have r1 : replaceFirstDot "scripts.test" = "scripts_test" := rfl
  have r2 : replaceFirstDot "version" = "version" := rfl
  have r3 : replaceFirstDot "repository.url" = "repository_url" := rfl
  have r4 : replaceFirstDot "bugs.url" = "bugs_url" := rfl
  have r5 : replaceFirstDot "homepage" = "homepage" := rfl
  have r6 : replaceFirstDot "license" = "license" := rfl
  cases hs : env.satisfies env.processVersion c with
  | false =>
    by_cases hnv : v = "NO_VERSION"
    · subst hnv
      simp +decide [inspectModule, inspectNew, mEngine, jsGet, jsGet2, jsKeyRaw, jsToString,
        truthyO, truthy, lookupAssoc, setAssoc, checkAttr, getPropertyVal, getPropertyValGo,
        isFalseLit, isStrEq, validJs, checkDepVersions, objFields, depFindings, toDoChecks,
        putNameVer, putName, NO_VERSION, engineNodeMsg, truthyNum, incOpt, getMR,
        e1, e2, e3, e4, e5, e6, r1, r2, r3, r4, r5, r6, hbn, hbc, hs, hvalid]
    · have hbnv : (v == "NO_VERSION") = false := beq_eq_false_iff_ne.mpr hnv
      simp +decide [inspectModule, inspectNew, mEngine, jsGet, jsGet2, jsKeyRaw, jsToString,
        truthyO, truthy, lookupAssoc, setAssoc, checkAttr, getPropertyVal, getPropertyValGo,
        isFalseLit, isStrEq, validJs, checkDepVersions, objFields, depFindings, toDoChecks,
        putNameVer, putName, NO_VERSION, engineNodeMsg, truthyNum, incOpt, getMR,
        e1, e2, e3, e4, e5, e6, r1, r2, r3, r4, r5, r6, hbn, hbv, hbc, hbnv, hs, hvalid]
  | true =>
    by_cases hnv : v = "NO_VERSION"
    · subst hnv
      simp +decide [inspectModule, inspectNew, mEngine, jsGet, jsGet2, jsKeyRaw, jsToString,
        truthyO, truthy, lookupAssoc, setAssoc, checkAttr, getPropertyVal, getPropertyValGo,
        isFalseLit, isStrEq, validJs, checkDepVersions, objFields, depFindings, toDoChecks,
        putNameVer, putName, NO_VERSION, engineNodeMsg, truthyNum, incOpt, getMR,
        e1, e2, e3, e4, e5, e6, r1, r2, r3, r4, r5, r6, hbn, hbc, hs, hvalid]
    · have hbnv : (v == "NO_VERSION") = false := beq_eq_false_iff_ne.mpr hnv
      simp +decide [inspectModule, inspectNew, mEngine, jsGet, jsGet2, jsKeyRaw, jsToString,
        truthyO, truthy, lookupAssoc, setAssoc, checkAttr, getPropertyVal, getPropertyValGo,
        isFalseLit, isStrEq, validJs, checkDepVersions, objFields, depFindings, toDoChecks,
        putNameVer, putName, NO_VERSION, engineNodeMsg, truthyNum, incOpt, getMR,
        e1, e2, e3, e4, e5, e6, r1, r2, r3, r4, r5, r6, hbn, hbv, hbc, hbnv, hs, hvalid]

theorem inspectModule_engine_mismatch_error_witness :
    ("c1" : String) ≠ "" ∧
    (inspectModule envSat (mEngine "x" "1.0.0" "c1") {}).2 = .ok true ∧
    (getMR (inspectModule envSat (mEngine "x" "1.0.0" "c1") {}).1 "x" "1.0.0").map
        MReport.errors =
      some (if envSat.satisfies envSat.processVersion "c1" then []
            else ["version of Node.js (" ++ envSat.processVersion
                    ++ ") does not satisfy engine.node: " ++ "c1"]) :=
  ⟨by decide, (inspectModule_engine_mismatch_error envSat "x" "1.0.0" "c1" (by decide)
    (by decide) (by decide) rfl).1,
   (inspectModule_engine_mismatch_error envSat "x" "1.0.0" "c1" (by decide)
    (by decide) (by decide) rfl).2⟩

/-! Claim C10. -/

/-- Claim C10: whenever the checked dotted path resolves, at any depth, to
the boolean value `false` (a field explicitly present with that value),
`checkAttr` classifies the field as missing — appending "package.json
missing: <path>" to `errors` or `warnings` according to `isError` — and
stores nothing on the report, because `getPropertyVal`'s missing-field
sentinel is the same value `false` as the legitimate field value. -/
theorem checkAttr_false_value_reported_missing (module : JsVal) (target : String)
    (isError : Bool) (reportForMod : MReport)
    (hfalse : resolveOpt module (splitDot target) = some (.b false)) :
    checkAttr module target isError reportForMod =
      (if isError then
        {reportForMod with
          errors := reportForMod.errors ++ ["package.json missing: " ++ target]}
      else
        {reportForMod with
          warnings := reportForMod.warnings ++ ["package.json missing: " ++ target]}) := by
  have hval : getPropertyVal module target (.b false) = .b false :=
    getPropertyValGo_of_resolveOpt (.b false) (splitDot target) module (.b false) hfalse
  unfold checkAttr
  rw [hval]
  simp [isFalseLit]

theorem checkAttr_false_value_reported_missing_witness :
    resolveOpt (.o [("license", .b false)]) (splitDot "license") = some (.b false) ∧
    checkAttr (.o [("license", .b false)]) "license" false {} =
      {warnings := ["package.json missing: license"]} := by
  refine ⟨rfl, ?_⟩
  rw [checkAttr_false_value_reported_missing (.o [("license", .b false)]) "license" false {} rfl]
  rfl
